import Mathlib

/-!
# Agemo pub-sub service: topic lifecycle verification

Shallow embedding of the dynamic topic management logic of the Agemo
pub-sub service (`pub-sub-service/src/topic_manager.rs`,
`pub-sub-service/src/pubsub_impl.rs`, `pub-sub-service/src/pubsub_connector.rs`),
together with theorems settling the specification claims about it.

Modelling decisions:
* `Instant` timestamps become `Nat` values; every operation that calls
  `Instant::now()` receives the current time `now : Nat` as an argument.
* The `i32` subscriber count becomes `Int` (Rust would panic on overflow in
  debug builds; no claim involves wrap-around).
* The shared `HashMap<String, TopicMetadata>` becomes an association list
  `List (String × TopicMetadata)` with first-match lookup; `KeysNodup`
  states the HashMap key-uniqueness invariant where the proofs need it.
* `Uuid::new_v4()` is nondeterministic, so `create_topic` takes the
  generated id as an argument.
* The outbound gRPC machinery in `manage_topic` (uri parsing and the
  `ManageTopicRequest` call) is abstracted by oracle functions passed as
  arguments; the embedding records whether the RPC path was reached.
-/

set_option autoImplicit false

namespace Agemo

/-- `PubSubAction` from `pubsub_connector.rs`: an action happening in the
messaging broker. -/
inductive PubSubAction where
  | Subscribe
  | Unsubscribe
  | Timeout
  | Delete
  | PubDisconnect
deriving DecidableEq, Repr

/-- The `Display` impl for `PubSubAction` (uppercased debug name). -/
def PubSubAction.toString : PubSubAction → String
  | .Subscribe => "SUBSCRIBE"
  | .Unsubscribe => "UNSUBSCRIBE"
  | .Timeout => "TIMEOUT"
  | .Delete => "DELETE"
  | .PubDisconnect => "PUBDISCONNECT"

/-- `MonitorMessage` from `pubsub_connector.rs`. -/
structure MonitorMessage where
  context : String
  action : PubSubAction
deriving DecidableEq, Repr

/-- `TopicMetadata` from `topic_manager.rs`.  `last_action` is a `Nat`
timestamp standing for the `Instant`. -/
structure TopicMetadata where
  client_id : String
  count : Int
  deleted : Bool
  last_action : Nat
  management_callback : Option String
deriving DecidableEq, Repr

/-- `TopicMetadata::new`: fresh metadata with `deleted = false` and
`last_action = now`. -/
def TopicMetadata.new (client_id : String) (count : Int) (now : Nat)
    (management_cb : Option String) : TopicMetadata :=
  { client_id := client_id, count := count, deleted := false,
    last_action := now, management_callback := management_cb }

/-- `TopicMetadata::get_management_callback`. -/
def TopicMetadata.get_management_callback (m : TopicMetadata) : Option String :=
  m.management_callback

/-- `TopicMetadata::is_deleted`. -/
def TopicMetadata.is_deleted (m : TopicMetadata) : Bool :=
  m.deleted

/-- `TopicMetadata::reset_timeout`: set `last_action` to the current instant. -/
def TopicMetadata.reset_timeout (m : TopicMetadata) (now : Nat) : TopicMetadata :=
  { m with last_action := now }

/-- `TopicMetadata::delete`: mark the topic for deletion. -/
def TopicMetadata.delete (m : TopicMetadata) : TopicMetadata :=
  { m with deleted := true }

/-- `ActiveTopicsMap`: the Registry, `HashMap<String, TopicMetadata>`
modelled as an association list with first-match lookup. -/
abbrev ActiveTopicsMap := List (String × TopicMetadata)

/-- First-match lookup, the model of `HashMap::get`. -/
def lookupTopic : ActiveTopicsMap → String → Option TopicMetadata
  | [], _ => none
  | (k, v) :: rest, key => if k = key then some v else lookupTopic rest key

/-- Model of `HashMap::insert`: replace the first entry with this key in
place, or append a new entry. -/
def insertTopic : ActiveTopicsMap → String → TopicMetadata → ActiveTopicsMap
  | [], key, v => [(key, v)]
  | (k, w) :: rest, key, v =>
    if k = key then (k, v) :: rest else (k, w) :: insertTopic rest key v

/-- Model of `HashMap::remove` (on the map part): drop the first entry with
this key. -/
def removeTopic : ActiveTopicsMap → String → ActiveTopicsMap
  | [], _ => []
  | (k, w) :: rest, key =>
    if k = key then rest else (k, w) :: removeTopic rest key

/-- The HashMap invariant: all keys distinct. -/
def KeysNodup (m : ActiveTopicsMap) : Prop :=
  (m.map Prod.fst).Nodup

instance (m : ActiveTopicsMap) : Decidable (KeysNodup m) := by
  unfold KeysNodup; infer_instance

/-- `TopicManagementInfo` from `topic_manager.rs`. -/
structure TopicManagementInfo where
  topic : String
  uri : String
deriving DecidableEq, Repr

/-- `TopicAction` from `topic_manager.rs`. -/
inductive TopicAction where
  | Start (info : TopicManagementInfo)
  | Stop (info : TopicManagementInfo)
  | Delete (info : TopicManagementInfo)
deriving DecidableEq, Repr

/-- `TopicActionMetadata` from `topic_manager.rs`. -/
structure TopicActionMetadata where
  topic : String
  uri : String
  action : String
deriving DecidableEq, Repr

/-- `TopicActionMetadata::new`: convert a `TopicAction` into its metadata. -/
def TopicActionMetadata.new : TopicAction → TopicActionMetadata
  | .Start info => { topic := info.topic, uri := info.uri, action := "START" }
  | .Stop info => { topic := info.topic, uri := info.uri, action := "STOP" }
  | .Delete info => { topic := info.topic, uri := info.uri, action := "DELETE" }

/-- `TopicManager::update_topic` from `topic_manager.rs` (lines 191-277):
process one `MonitorMessage` against the active-topics map, returning the
updated map and the optional `TopicAction` to perform. -/
def update_topic (map : ActiveTopicsMap) (msg : MonitorMessage) (now : Nat) :
    ActiveTopicsMap × Option TopicAction :=
  let context := msg.context
  match msg.action with
  | .Subscribe =>
    match lookupTopic map context with
    | none =>
      -- Vacant entry: insert a placeholder, leaving the management_cb unset.
      (insertTopic map context (TopicMetadata.new "" 1 now none), none)
    | some v =>
      let v1 := { (v.reset_timeout now) with count := v.count + 1 }
      match v1.get_management_callback with
      | some management_uri =>
        if v1.count = 1 then
          (insertTopic map context v1,
            some (.Start { topic := context, uri := management_uri }))
        else
          (insertTopic map context v1, none)
      | none => (insertTopic map context v1, none)
  | .Unsubscribe =>
    match lookupTopic map context with
    | none => (map, none)
    | some v =>
      let v1 := { (v.reset_timeout now) with count := v.count - 1 }
      match v1.get_management_callback with
      | some management_uri =>
        if v1.count ≤ 0 then
          -- Edge case with duplicate messages: clamp the count to zero.
          (insertTopic map context { v1 with count := 0 },
            some (.Stop { topic := context, uri := management_uri }))
        else
          (insertTopic map context v1, none)
      | none => (insertTopic map context v1, none)
  | .Timeout =>
    match lookupTopic map context with
    | none => (map, none)
    | some v =>
      let v1 := v.reset_timeout now
      match v1.get_management_callback with
      | some management_uri =>
        if v1.count ≤ 0 then
          (insertTopic map context { v1 with count := 0 },
            some (.Stop { topic := context, uri := management_uri }))
        else
          (insertTopic map context v1, none)
      | none => (insertTopic map context v1, none)
  | .Delete =>
    (removeTopic map context,
      ((lookupTopic map context).bind TopicMetadata.get_management_callback).map
        fun management_uri => .Delete { topic := context, uri := management_uri })
  | .PubDisconnect =>
    -- The catch-all arm only logs a warning.
    (map, none)

/-- `ManageTopicRequest` from the publisher proto. -/
structure ManageTopicRequest where
  topic : String
  action : String
deriving DecidableEq, Repr

/-- `TopicManager::manage_topic` from `topic_manager.rs` (lines 284-311).
`getUri` abstracts `load_config::get_uri`; `rpcCall` abstracts connecting a
`PublisherCallbackClient` and invoking `manage_topic_callback`.  The `Bool`
component records whether the outbound RPC path was reached. -/
def manage_topic (getUri : String → Except String String)
    (rpcCall : String → ManageTopicRequest → Except String Unit)
    (action : TopicAction) : Except String TopicActionMetadata × Bool :=
  let action_metadata := TopicActionMetadata.new action
  -- No need to contact the publisher on a DELETE action.
  if action_metadata.action = PubSubAction.Delete.toString then
    (.ok action_metadata, false)
  else
    match getUri action_metadata.uri with
    | .error e => (.error e, false)
    | .ok uri =>
      match rpcCall uri { topic := action_metadata.topic,
                          action := action_metadata.action } with
      | .error e => (.error e, true)
      | .ok _ => (.ok action_metadata, true)

/-- `CreateTopicResponse` from the pubsub proto. -/
structure CreateTopicResponse where
  generated_topic : String
  broker_uri : String
  broker_protocol : String
deriving DecidableEq, Repr

/-- `PubSubImpl::create_topic` from `pubsub_impl.rs` (lines 42-70).
`gen_topic` stands for the freshly generated `Uuid::new_v4` string; `uri`
and `protocol` are the service's configured broker values.  The request
fields `publisher_id` and `management_callback` are taken as given; the
handler performs no validation and always answers `Ok`. -/
def create_topic (map : ActiveTopicsMap) (gen_topic publisher_id management_callback : String)
    (uri protocol : String) (now : Nat) : ActiveTopicsMap × CreateTopicResponse :=
  let metadata := TopicMetadata.new publisher_id 0 now (some management_callback)
  (insertTopic map gen_topic metadata,
    { generated_topic := gen_topic, broker_uri := uri, broker_protocol := protocol })

/-- `PubSubImpl::delete_topic` from `pubsub_impl.rs` (lines 81-96): mark the
topic for deletion if present; always answer `Ok` with an empty response. -/
def delete_topic (map : ActiveTopicsMap) (topic : String) : ActiveTopicsMap :=
  match lookupTopic map topic with
  | some t => insertTopic map topic t.delete
  | none => map

/-- Run a sequence of timestamped monitor messages through
`update_topic`, collecting the emitted actions in order. -/
def runEvents (map : ActiveTopicsMap) :
    List (MonitorMessage × Nat) → ActiveTopicsMap × List TopicAction
  | [] => (map, [])
  | (msg, now) :: rest =>
    let step := update_topic map msg now
    let tail := runEvents step.1 rest
    (tail.1, step.2.toList ++ tail.2)

/-- Is this action a `Start` for topic `t`? -/
def isStartFor (t : String) : TopicAction → Bool
  | .Start info => info.topic = t
  | _ => false

/-- Is this action a `Delete` for topic `t`? -/
def isDeleteFor (t : String) : TopicAction → Bool
  | .Delete info => info.topic = t
  | _ => false

/-- Number of `Start` actions for topic `t` in a list of actions. -/
def countStarts (t : String) (actions : List TopicAction) : Nat :=
  (actions.filter (isStartFor t)).length

/-- Number of `Delete` actions for topic `t` in a list of actions. -/
def countDeletes (t : String) (actions : List TopicAction) : Nat :=
  (actions.filter (isDeleteFor t)).length

/-- Does processing `msg` at time `now` take topic `t`'s subscriber count
from `0` to `1` while `t`'s management callback is set? -/
def zeroOneStep (map : ActiveTopicsMap) (msg : MonitorMessage) (now : Nat)
    (t : String) : Bool :=
  match lookupTopic map t, lookupTopic (update_topic map msg now).1 t with
  | some v, some v' =>
    v.count = 0 && v'.count = 1 && v.management_callback.isSome
  | _, _ => false

/-- Number of callback-set 0→1 transitions of topic `t`'s count along a
sequence of timestamped monitor messages. -/
def countZeroOne (map : ActiveTopicsMap) (es : List (MonitorMessage × Nat))
    (t : String) : Nat :=
  match es with
  | [] => 0
  | (msg, now) :: rest =>
    (if zeroOneStep map msg now t then 1 else 0) +
      countZeroOne (update_topic map msg now).1 rest t

/-! ## Registry lemmas -/

theorem lookupTopic_insertTopic_self (m : ActiveTopicsMap) (k : String) (v : TopicMetadata) :
    lookupTopic (insertTopic m k v) k = some v := by
  induction m with
  | nil => simp [insertTopic, lookupTopic]
  | cons p rest ih =>
    obtain ⟨a, b⟩ := p
    by_cases h : a = k
    · simp [insertTopic, h, lookupTopic]
    · simp [insertTopic, h, lookupTopic, ih]

theorem lookupTopic_insertTopic_ne (m : ActiveTopicsMap) (k k' : String) (v : TopicMetadata)
    (h : k' ≠ k) : lookupTopic (insertTopic m k v) k' = lookupTopic m k' := by
  induction m with
  | nil => simp [insertTopic, lookupTopic, Ne.symm h]
  | cons p rest ih =>
    obtain ⟨a, b⟩ := p
    by_cases hak : a = k
    · subst hak
      simp [insertTopic, lookupTopic, Ne.symm h]
    · simp [insertTopic, hak, lookupTopic, ih]

theorem lookupTopic_removeTopic_ne (m : ActiveTopicsMap) (k k' : String)
    (h : k' ≠ k) : lookupTopic (removeTopic m k) k' = lookupTopic m k' := by
  induction m with
  | nil => simp [removeTopic]
  | cons p rest ih =>
    obtain ⟨a, b⟩ := p
    by_cases hak : a = k
    · subst hak
      simp [removeTopic, lookupTopic, Ne.symm h]
    · simp [removeTopic, hak, lookupTopic, ih]

theorem removeTopic_absent (m : ActiveTopicsMap) (k : String)
    (h : lookupTopic m k = none) : removeTopic m k = m := by
  induction m with
  | nil => simp [removeTopic]
  | cons p rest ih =>
    obtain ⟨a, b⟩ := p
    by_cases hak : a = k
    · simp [lookupTopic, hak] at h
    · simp [lookupTopic, hak] at h
      simp [removeTopic, hak, ih h]

theorem lookupTopic_eq_none_of_not_mem (m : ActiveTopicsMap) (k : String)
    (h : k ∉ m.map Prod.fst) : lookupTopic m k = none := by
  induction m with
  | nil => simp [lookupTopic]
  | cons p rest ih =>
    obtain ⟨a, b⟩ := p
    simp only [List.map_cons, List.mem_cons, not_or] at h
    simp [lookupTopic, Ne.symm h.1, ih h.2]

theorem lookupTopic_removeTopic_self (m : ActiveTopicsMap) (k : String)
    (h : KeysNodup m) : lookupTopic (removeTopic m k) k = none := by
  induction m with
  | nil => simp [removeTopic, lookupTopic]
  | cons p rest ih =>
    obtain ⟨a, b⟩ := p
    simp only [KeysNodup, List.map_cons, List.nodup_cons] at h
    by_cases hak : a = k
    · subst hak
      simp [removeTopic, lookupTopic_eq_none_of_not_mem rest a h.1]
    · simp [removeTopic, hak, lookupTopic, ih h.2]

theorem insertTopic_insertTopic (m : ActiveTopicsMap) (k : String) (a b : TopicMetadata) :
    insertTopic (insertTopic m k a) k b = insertTopic m k b := by
  induction m with
  | nil => simp [insertTopic]
  | cons p rest ih =>
    obtain ⟨x, w⟩ := p
    by_cases hxk : x = k
    · simp [insertTopic, hxk]
    · simp [insertTopic, hxk, ih]

theorem mem_keys_insertTopic (m : ActiveTopicsMap) (k : String) (v : TopicMetadata)
    (x : String) :
    x ∈ (insertTopic m k v).map Prod.fst ↔ x ∈ m.map Prod.fst ∨ x = k := by
  induction m with
  | nil => simp [insertTopic]
  | cons p rest ih =>
    obtain ⟨a, b⟩ := p
    by_cases hak : a = k
    · subst hak
      have hins : insertTopic ((a, b) :: rest) a v = (a, v) :: rest := by
        simp [insertTopic]
      rw [hins]
      simp only [List.map_cons, List.mem_cons]
      tauto
    · simp only [insertTopic, if_neg hak, List.map_cons, List.mem_cons, ih]
      tauto

theorem keysNodup_insertTopic (m : ActiveTopicsMap) (k : String) (v : TopicMetadata)
    (h : KeysNodup m) : KeysNodup (insertTopic m k v) := by
  induction m with
  | nil => simp [insertTopic, KeysNodup]
  | cons p rest ih =>
    obtain ⟨a, b⟩ := p
    simp only [KeysNodup, List.map_cons, List.nodup_cons] at h
    by_cases hak : a = k
    · subst hak
      simpa [KeysNodup, insertTopic, List.nodup_cons] using h
    · have hmem : a ∉ (insertTopic rest k v).map Prod.fst := by
        intro hx
        rcases (mem_keys_insertTopic rest k v a).mp hx with hx | hx
        · exact h.1 hx
        · exact hak hx
      simpa [KeysNodup, insertTopic, hak, List.nodup_cons, hmem] using ih h.2

theorem keys_removeTopic_sublist (m : ActiveTopicsMap) (k : String) :
    ((removeTopic m k).map Prod.fst).Sublist (m.map Prod.fst) := by
  induction m with
  | nil => simp [removeTopic]
  | cons p rest ih =>
    obtain ⟨a, b⟩ := p
    by_cases hak : a = k
    · simp only [removeTopic, if_pos hak, List.map_cons]
      exact List.sublist_cons_self a (rest.map Prod.fst)
    · simp only [removeTopic, if_neg hak, List.map_cons]
      exact ih.cons₂ a

theorem keysNodup_removeTopic (m : ActiveTopicsMap) (k : String)
    (h : KeysNodup m) : KeysNodup (removeTopic m k) :=
  (keys_removeTopic_sublist m k).nodup h

/-! ## Branch equations for `update_topic` -/

theorem update_subscribe_absent (m : ActiveTopicsMap) (t : String) (now : Nat)
    (h : lookupTopic m t = none) :
    update_topic m ⟨t, .Subscribe⟩ now =
      (insertTopic m t (TopicMetadata.new "" 1 now none), none) := by
  simp [update_topic, h]

theorem update_subscribe_present (m : ActiveTopicsMap) (t : String) (v : TopicMetadata)
    (now : Nat) (h : lookupTopic m t = some v) :
    update_topic m ⟨t, .Subscribe⟩ now =
      (insertTopic m t { v with count := v.count + 1, last_action := now },
        if v.count + 1 = 1 then
          v.management_callback.map
            (fun u => TopicAction.Start { topic := t, uri := u })
        else none) := by
  cases hcb : v.management_callback with
  | none =>
    simp [update_topic, h, TopicMetadata.reset_timeout,
      TopicMetadata.get_management_callback, hcb]
  | some u =>
    by_cases hc : v.count + 1 = 1 <;>
      simp [update_topic, h, TopicMetadata.reset_timeout,
        TopicMetadata.get_management_callback, hcb, hc]

theorem update_unsubscribe_absent (m : ActiveTopicsMap) (t : String) (now : Nat)
    (h : lookupTopic m t = none) :
    update_topic m ⟨t, .Unsubscribe⟩ now = (m, none) := by
  simp [update_topic, h]

theorem update_unsubscribe_present_none (m : ActiveTopicsMap) (t : String)
    (v : TopicMetadata) (now : Nat) (h : lookupTopic m t = some v)
    (hcb : v.management_callback = none) :
    update_topic m ⟨t, .Unsubscribe⟩ now =
      (insertTopic m t { v with count := v.count - 1, last_action := now }, none) := by
  simp [update_topic, h, TopicMetadata.reset_timeout,
    TopicMetadata.get_management_callback, hcb]

theorem update_unsubscribe_present_clamp (m : ActiveTopicsMap) (t : String)
    (v : TopicMetadata) (u : String) (now : Nat) (h : lookupTopic m t = some v)
    (hcb : v.management_callback = some u) (hc : v.count - 1 ≤ 0) :
    update_topic m ⟨t, .Unsubscribe⟩ now =
      (insertTopic m t { v with count := 0, last_action := now },
        some (.Stop { topic := t, uri := u })) := by
  simp [update_topic, h, TopicMetadata.reset_timeout,
    TopicMetadata.get_management_callback, hcb, hc]

theorem update_unsubscribe_present_pos (m : ActiveTopicsMap) (t : String)
    (v : TopicMetadata) (u : String) (now : Nat) (h : lookupTopic m t = some v)
    (hcb : v.management_callback = some u) (hc : 0 < v.count - 1) :
    update_topic m ⟨t, .Unsubscribe⟩ now =
      (insertTopic m t { v with count := v.count - 1, last_action := now }, none) := by
  simp [update_topic, h, TopicMetadata.reset_timeout,
    TopicMetadata.get_management_callback, hcb, not_le.mpr hc]

theorem update_timeout_absent (m : ActiveTopicsMap) (t : String) (now : Nat)
    (h : lookupTopic m t = none) :
    update_topic m ⟨t, .Timeout⟩ now = (m, none) := by
  simp [update_topic, h]

theorem update_timeout_present_none (m : ActiveTopicsMap) (t : String)
    (v : TopicMetadata) (now : Nat) (h : lookupTopic m t = some v)
    (hcb : v.management_callback = none) :
    update_topic m ⟨t, .Timeout⟩ now =
      (insertTopic m t { v with last_action := now }, none) := by
  simp [update_topic, h, TopicMetadata.reset_timeout,
    TopicMetadata.get_management_callback, hcb]

theorem update_timeout_present_clamp (m : ActiveTopicsMap) (t : String)
    (v : TopicMetadata) (u : String) (now : Nat) (h : lookupTopic m t = some v)
    (hcb : v.management_callback = some u) (hc : v.count ≤ 0) :
    update_topic m ⟨t, .Timeout⟩ now =
      (insertTopic m t { v with count := 0, last_action := now },
        some (.Stop { topic := t, uri := u })) := by
  simp [update_topic, h, TopicMetadata.reset_timeout,
    TopicMetadata.get_management_callback, hcb, hc]

theorem update_timeout_present_pos (m : ActiveTopicsMap) (t : String)
    (v : TopicMetadata) (u : String) (now : Nat) (h : lookupTopic m t = some v)
    (hcb : v.management_callback = some u) (hc : 0 < v.count) :
    update_topic m ⟨t, .Timeout⟩ now =
      (insertTopic m t { v with last_action := now }, none) := by
  simp [update_topic, h, TopicMetadata.reset_timeout,
    TopicMetadata.get_management_callback, hcb, not_le.mpr hc]

theorem update_delete_eq (m : ActiveTopicsMap) (t : String) (now : Nat) :
    update_topic m ⟨t, .Delete⟩ now =
      (removeTopic m t,
        ((lookupTopic m t).bind TopicMetadata.get_management_callback).map
          fun u => TopicAction.Delete { topic := t, uri := u }) := rfl

theorem update_pubdisconnect_eq (m : ActiveTopicsMap) (t : String) (now : Nat) :
    update_topic m ⟨t, .PubDisconnect⟩ now = (m, none) := rfl

/-- The map produced by one step is the old map, an insert at the event's
context, or a removal of the event's context. -/
theorem update_topic_fst (m : ActiveTopicsMap) (msg : MonitorMessage) (now : Nat) :
    (update_topic m msg now).1 = m ∨
    (∃ v, (update_topic m msg now).1 = insertTopic m msg.context v) ∨
    (update_topic m msg now).1 = removeTopic m msg.context := by
  obtain ⟨c, action⟩ := msg
  cases action with
  | Subscribe =>
    cases h : lookupTopic m c with
    | none => rw [update_subscribe_absent m c now h]; exact Or.inr (Or.inl ⟨_, rfl⟩)
    | some v => rw [update_subscribe_present m c v now h]; exact Or.inr (Or.inl ⟨_, rfl⟩)
  | Unsubscribe =>
    cases h : lookupTopic m c with
    | none => rw [update_unsubscribe_absent m c now h]; exact Or.inl rfl
    | some v =>
      cases hcb : v.management_callback with
      | none =>
        rw [update_unsubscribe_present_none m c v now h hcb]
        exact Or.inr (Or.inl ⟨_, rfl⟩)
      | some u =>
        by_cases hc : v.count - 1 ≤ 0
        · rw [update_unsubscribe_present_clamp m c v u now h hcb hc]
          exact Or.inr (Or.inl ⟨_, rfl⟩)
        · rw [update_unsubscribe_present_pos m c v u now h hcb (by omega)]
          exact Or.inr (Or.inl ⟨_, rfl⟩)
  | Timeout =>
    cases h : lookupTopic m c with
    | none => rw [update_timeout_absent m c now h]; exact Or.inl rfl
    | some v =>
      cases hcb : v.management_callback with
      | none =>
        rw [update_timeout_present_none m c v now h hcb]
        exact Or.inr (Or.inl ⟨_, rfl⟩)
      | some u =>
        by_cases hc : v.count ≤ 0
        · rw [update_timeout_present_clamp m c v u now h hcb hc]
          exact Or.inr (Or.inl ⟨_, rfl⟩)
        · rw [update_timeout_present_pos m c v u now h hcb (by omega)]
          exact Or.inr (Or.inl ⟨_, rfl⟩)
  | Delete => rw [update_delete_eq]; exact Or.inr (Or.inr rfl)
  | PubDisconnect => rw [update_pubdisconnect_eq]; exact Or.inl rfl

/-- Frame: a step never touches entries other than the event's context. -/
theorem lookupTopic_update_topic_ne (m : ActiveTopicsMap) (msg : MonitorMessage)
    (now : Nat) (t : String) (h : t ≠ msg.context) :
    lookupTopic (update_topic m msg now).1 t = lookupTopic m t := by
  rcases update_topic_fst m msg now with h1 | ⟨v, h1⟩ | h1 <;> rw [h1]
  · exact lookupTopic_insertTopic_ne m msg.context t v h
  · exact lookupTopic_removeTopic_ne m msg.context t h

/-- A step preserves key uniqueness. -/
theorem keysNodup_update_topic (m : ActiveTopicsMap) (msg : MonitorMessage)
    (now : Nat) (h : KeysNodup m) : KeysNodup (update_topic m msg now).1 := by
  rcases update_topic_fst m msg now with h1 | ⟨v, h1⟩ | h1 <;> rw [h1]
  · exact h
  · exact keysNodup_insertTopic m msg.context v h
  · exact keysNodup_removeTopic m msg.context h

/-- Every emitted action names the event's context as its topic. -/
theorem update_topic_snd_cases (m : ActiveTopicsMap) (msg : MonitorMessage) (now : Nat) :
    (update_topic m msg now).2 = none ∨
    (∃ u, (update_topic m msg now).2 =
      some (.Start { topic := msg.context, uri := u })) ∨
    (∃ u, (update_topic m msg now).2 =
      some (.Stop { topic := msg.context, uri := u })) ∨
    (∃ u, (update_topic m msg now).2 =
      some (.Delete { topic := msg.context, uri := u })) := by
  obtain ⟨c, action⟩ := msg
  cases action with
  | Subscribe =>
    cases h : lookupTopic m c with
    | none => rw [update_subscribe_absent m c now h]; exact Or.inl rfl
    | some v =>
      rw [update_subscribe_present m c v now h]
      by_cases hc : v.count + 1 = 1
      · cases hcb : v.management_callback with
        | none => simp [hc, hcb]
        | some u => simp [hc, hcb]
      · simp [hc]
  | Unsubscribe =>
    cases h : lookupTopic m c with
    | none => rw [update_unsubscribe_absent m c now h]; exact Or.inl rfl
    | some v =>
      cases hcb : v.management_callback with
      | none => rw [update_unsubscribe_present_none m c v now h hcb]; exact Or.inl rfl
      | some u =>
        by_cases hc : v.count - 1 ≤ 0
        · rw [update_unsubscribe_present_clamp m c v u now h hcb hc]
          exact Or.inr (Or.inr (Or.inl ⟨u, rfl⟩))
        · rw [update_unsubscribe_present_pos m c v u now h hcb (by omega)]
          exact Or.inl rfl
  | Timeout =>
    cases h : lookupTopic m c with
    | none => rw [update_timeout_absent m c now h]; exact Or.inl rfl
    | some v =>
      cases hcb : v.management_callback with
      | none => rw [update_timeout_present_none m c v now h hcb]; exact Or.inl rfl
      | some u =>
        by_cases hc : v.count ≤ 0
        · rw [update_timeout_present_clamp m c v u now h hcb hc]
          exact Or.inr (Or.inr (Or.inl ⟨u, rfl⟩))
        · rw [update_timeout_present_pos m c v u now h hcb (by omega)]
          exact Or.inl rfl
  | Delete =>
    rw [update_delete_eq]
    cases hx : (lookupTopic m c).bind TopicMetadata.get_management_callback with
    | none => simp [hx]
    | some u => simp [hx]
  | PubDisconnect => rw [update_pubdisconnect_eq]; exact Or.inl rfl

/-- A step whose map component is unchanged at `t` is not a 0→1 transition. -/
theorem zeroOneStep_false_of_frame (m : ActiveTopicsMap) (msg : MonitorMessage)
    (now : Nat) (t : String)
    (h : lookupTopic (update_topic m msg now).1 t = lookupTopic m t) :
    zeroOneStep m msg now t = false := by
  unfold zeroOneStep
  rw [h]
  cases hl : lookupTopic m t with
  | none => rfl
  | some v =>
    by_cases h0 : v.count = 0
    · have h1 : v.count ≠ 1 := by omega
      simp [h0, h1]
    · simp [h0]

theorem countStarts_append (t : String) (l1 l2 : List TopicAction) :
    countStarts t (l1 ++ l2) = countStarts t l1 + countStarts t l2 := by
  simp [countStarts, List.filter_append]

theorem countDeletes_append (t : String) (l1 l2 : List TopicAction) :
    countDeletes t (l1 ++ l2) = countDeletes t l1 + countDeletes t l2 := by
  simp [countDeletes, List.filter_append]

/-- One step emits a `Start` for `t` exactly when it is a callback-set
0→1 transition of `t`'s count. -/
theorem countStarts_step (m : ActiveTopicsMap) (msg : MonitorMessage) (now : Nat)
    (t : String) (hn : KeysNodup m) :
    countStarts t (update_topic m msg now).2.toList =
      (if zeroOneStep m msg now t then 1 else 0) := by
  obtain ⟨c, action⟩ := msg
  by_cases htc : t = c
  · subst htc
    cases action with
    | Subscribe =>
      cases h : lookupTopic m t with
      | none =>
        unfold zeroOneStep
        rw [update_subscribe_absent m t now h]
        dsimp only
        rw [h]
        simp [countStarts]
      | some v =>
        have hstep := update_subscribe_present m t v now h
        have hpost : lookupTopic
            (insertTopic m t { v with count := v.count + 1, last_action := now }) t =
            some { v with count := v.count + 1, last_action := now } :=
          lookupTopic_insertTopic_self m t _
        unfold zeroOneStep
        rw [hstep]
        dsimp only
        rw [hpost, h]
        cases hcb : v.management_callback with
        | none =>
          by_cases hc : v.count + 1 = 1 <;> simp [hc, hcb, countStarts]
        | some u =>
          by_cases hc : v.count + 1 = 1
          · have h0 : v.count = 0 := by omega
            simp [hc, hcb, countStarts, isStartFor, h0]
          · have h0 : v.count ≠ 0 := by omega
            simp [hc, hcb, countStarts, h0]
    | Unsubscribe =>
      cases h : lookupTopic m t with
      | none =>
        unfold zeroOneStep
        rw [update_unsubscribe_absent m t now h]
        dsimp only
        rw [h]
        simp [countStarts]
      | some v =>
        cases hcb : v.management_callback with
        | none =>
          have hstep := update_unsubscribe_present_none m t v now h hcb
          have hpost : lookupTopic
              (insertTopic m t { v with count := v.count - 1, last_action := now }) t =
              some { v with count := v.count - 1, last_action := now } :=
            lookupTopic_insertTopic_self m t _
          unfold zeroOneStep
          rw [hstep]
          dsimp only
          rw [hpost, h]
          simp [countStarts, hcb]
        | some u =>
          by_cases hc : v.count - 1 ≤ 0
          · have hstep := update_unsubscribe_present_clamp m t v u now h hcb hc
            have hpost : lookupTopic
                (insertTopic m t { v with count := 0, last_action := now }) t =
                some { v with count := 0, last_action := now } :=
              lookupTopic_insertTopic_self m t _
            unfold zeroOneStep
            rw [hstep]
            dsimp only
            rw [hpost, h]
            simp [countStarts, isStartFor]
          · have hstep := update_unsubscribe_present_pos m t v u now h hcb (by omega)
            have hpost : lookupTopic
                (insertTopic m t { v with count := v.count - 1, last_action := now }) t =
                some { v with count := v.count - 1, last_action := now } :=
              lookupTopic_insertTopic_self m t _
            unfold zeroOneStep
            rw [hstep]
            dsimp only
            rw [hpost, h]
            have h0 : v.count ≠ 0 := by omega
            simp [countStarts, h0]
    | Timeout =>
      cases h : lookupTopic m t with
      | none =>
        unfold zeroOneStep
        rw [update_timeout_absent m t now h]
        dsimp only
        rw [h]
        simp [countStarts]
      | some v =>
        cases hcb : v.management_callback with
        | none =>
          have hstep := update_timeout_present_none m t v now h hcb
          have hpost : lookupTopic
              (insertTopic m t { v with last_action := now }) t =
              some { v with last_action := now } :=
            lookupTopic_insertTopic_self m t _
          unfold zeroOneStep
          rw [hstep]
          dsimp only
          rw [hpost, h]
          simp [countStarts, hcb]
        | some u =>
          by_cases hc : v.count ≤ 0
          · have hstep := update_timeout_present_clamp m t v u now h hcb hc
            have hpost : lookupTopic
                (insertTopic m t { v with count := 0, last_action := now }) t =
                some { v with count := 0, last_action := now } :=
              lookupTopic_insertTopic_self m t _
            unfold zeroOneStep
            rw [hstep]
            dsimp only
            rw [hpost, h]
            simp [countStarts, isStartFor]
          · have hstep := update_timeout_present_pos m t v u now h hcb (by omega)
            have hpost : lookupTopic
                (insertTopic m t { v with last_action := now }) t =
                some { v with last_action := now } :=
              lookupTopic_insertTopic_self m t _
            unfold zeroOneStep
            rw [hstep]
            dsimp only
            rw [hpost, h]
            have h0 : v.count ≠ 0 := by omega
            simp [countStarts, h0]
    | Delete =>
      have hpost : lookupTopic (removeTopic m t) t = none :=
        lookupTopic_removeTopic_self m t hn
      unfold zeroOneStep
      rw [update_delete_eq]
      dsimp only
      rw [hpost]
      cases hl : lookupTopic m t with
      | none => simp [countStarts]
      | some v =>
        cases hcb : v.management_callback <;>
          simp [countStarts, isStartFor, TopicMetadata.get_management_callback, hcb]
    | PubDisconnect =>
      unfold zeroOneStep
      rw [update_pubdisconnect_eq]
      dsimp only
      cases hl : lookupTopic m t with
      | none => simp [countStarts]
      | some v =>
        by_cases h0 : v.count = 0
        · have h1 : v.count ≠ 1 := by omega
          simp [countStarts, h0, h1]
        · simp [countStarts, h0]
  · rw [zeroOneStep_false_of_frame m _ now t
      (lookupTopic_update_topic_ne m _ now t htc)]
    have hct : ¬c = t := fun hh => htc hh.symm
    rcases update_topic_snd_cases m ⟨c, action⟩ now with h | ⟨u, h⟩ | ⟨u, h⟩ | ⟨u, h⟩ <;>
      rw [h] <;> simp [countStarts, isStartFor, hct]

/-- Over any event sequence, the `Start` actions emitted for a topic are in
bijection with its callback-set 0→1 count transitions. -/
theorem countStarts_runEvents (m : ActiveTopicsMap) (es : List (MonitorMessage × Nat))
    (t : String) (hn : KeysNodup m) :
    countStarts t (runEvents m es).2 = countZeroOne m es t := by
  induction es generalizing m with
  | nil => simp [runEvents, countZeroOne, countStarts]
  | cons e rest ih =>
    obtain ⟨msg, now⟩ := e
    show countStarts t ((update_topic m msg now).2.toList ++
        (runEvents (update_topic m msg now).1 rest).2) = _
    rw [countStarts_append, countStarts_step m msg now t hn,
      ih (update_topic m msg now).1 (keysNodup_update_topic m msg now hn)]
    rfl

/-- `1` when topic `t` is present with a set management callback, else `0`. -/
def cbFlag (m : ActiveTopicsMap) (t : String) : Nat :=
  if ((lookupTopic m t).bind TopicMetadata.get_management_callback).isSome then 1 else 0

theorem cbFlag_le_one (m : ActiveTopicsMap) (t : String) : cbFlag m t ≤ 1 := by
  unfold cbFlag
  split <;> omega

/-- One step: the `Delete` actions emitted for `t` plus the residual callback
flag never exceed the incoming callback flag.  (A `Delete` is emitted only
when the flag is up, and it takes the flag down for good.) -/
theorem countDeletes_step (m : ActiveTopicsMap) (msg : MonitorMessage) (now : Nat)
    (t : String) (hn : KeysNodup m) :
    countDeletes t (update_topic m msg now).2.toList +
      cbFlag (update_topic m msg now).1 t ≤ cbFlag m t := by
  obtain ⟨c, action⟩ := msg
  by_cases htc : t = c
  · subst htc
    cases action with
    | Subscribe =>
      cases h : lookupTopic m t with
      | none =>
        rw [update_subscribe_absent m t now h]
        dsimp only
        unfold cbFlag
        rw [lookupTopic_insertTopic_self, h]
        simp [countDeletes, TopicMetadata.new, TopicMetadata.get_management_callback]
      | some v =>
        rw [update_subscribe_present m t v now h]
        dsimp only
        unfold cbFlag
        rw [lookupTopic_insertTopic_self, h]
        by_cases hc : v.count + 1 = 1
        · cases hcb : v.management_callback <;>
            simp [hc, hcb, countDeletes, isDeleteFor,
              TopicMetadata.get_management_callback]
        · simp [hc, countDeletes, TopicMetadata.get_management_callback]
    | Unsubscribe =>
      cases h : lookupTopic m t with
      | none =>
        rw [update_unsubscribe_absent m t now h]
        simp [countDeletes]
      | some v =>
        cases hcb : v.management_callback with
        | none =>
          rw [update_unsubscribe_present_none m t v now h hcb]
          dsimp only
          unfold cbFlag
          rw [lookupTopic_insertTopic_self, h]
          simp [countDeletes, hcb, TopicMetadata.get_management_callback]
        | some u =>
          by_cases hc : v.count - 1 ≤ 0
          · rw [update_unsubscribe_present_clamp m t v u now h hcb hc]
            dsimp only
            unfold cbFlag
            rw [lookupTopic_insertTopic_self, h]
            simp [countDeletes, isDeleteFor, hcb,
              TopicMetadata.get_management_callback]
          · rw [update_unsubscribe_present_pos m t v u now h hcb (by omega)]
            dsimp only
            unfold cbFlag
            rw [lookupTopic_insertTopic_self, h]
            simp [countDeletes, hcb, TopicMetadata.get_management_callback]
    | Timeout =>
      cases h : lookupTopic m t with
      | none =>
        rw [update_timeout_absent m t now h]
        simp [countDeletes]
      | some v =>
        cases hcb : v.management_callback with
        | none =>
          rw [update_timeout_present_none m t v now h hcb]
          dsimp only
          unfold cbFlag
          rw [lookupTopic_insertTopic_self, h]
          simp [countDeletes, hcb, TopicMetadata.get_management_callback]
        | some u =>
          by_cases hc : v.count ≤ 0
          · rw [update_timeout_present_clamp m t v u now h hcb hc]
            dsimp only
            unfold cbFlag
            rw [lookupTopic_insertTopic_self, h]
            simp [countDeletes, isDeleteFor, hcb,
              TopicMetadata.get_management_callback]
          · rw [update_timeout_present_pos m t v u now h hcb (by omega)]
            dsimp only
            unfold cbFlag
            rw [lookupTopic_insertTopic_self, h]
            simp [countDeletes, hcb, TopicMetadata.get_management_callback]
    | Delete =>
      rw [update_delete_eq]
      dsimp only
      unfold cbFlag
      rw [lookupTopic_removeTopic_self m t hn]
      cases hl : lookupTopic m t with
      | none => simp [countDeletes]
      | some v =>
        cases hcb : v.management_callback <;>
          simp [countDeletes, isDeleteFor, hcb,
            TopicMetadata.get_management_callback]
    | PubDisconnect =>
      rw [update_pubdisconnect_eq]
      simp [countDeletes]
  · have hframe := lookupTopic_update_topic_ne m ⟨c, action⟩ now t htc
    have hflag : cbFlag (update_topic m ⟨c, action⟩ now).1 t = cbFlag m t := by
      unfold cbFlag
      rw [hframe]
    rw [hflag]
    have hct : ¬c = t := fun hh => htc hh.symm
    rcases update_topic_snd_cases m ⟨c, action⟩ now with h | ⟨u, h⟩ | ⟨u, h⟩ | ⟨u, h⟩ <;>
      rw [h] <;> simp [countDeletes, isDeleteFor, hct]

/-- Over any event sequence, at most `cbFlag` many `Delete` actions are
emitted for `t`. -/
theorem countDeletes_runEvents (m : ActiveTopicsMap) (es : List (MonitorMessage × Nat))
    (t : String) (hn : KeysNodup m) :
    countDeletes t (runEvents m es).2 ≤ cbFlag m t := by
  induction es generalizing m with
  | nil => simp [runEvents, countDeletes]
  | cons e rest ih =>
    obtain ⟨msg, now⟩ := e
    show countDeletes t ((update_topic m msg now).2.toList ++
        (runEvents (update_topic m msg now).1 rest).2) ≤ _
    rw [countDeletes_append]
    have h1 := countDeletes_step m msg now t hn
    have h2 := ih (update_topic m msg now).1 (keysNodup_update_topic m msg now hn)
    omega

/-- Subscribe/Unsubscribe/Timeout processing never sets a management
callback on an entry that has none. -/
theorem cbNone_step (m : ActiveTopicsMap) (msg : MonitorMessage) (now : Nat)
    (t : String)
    (hk : msg.action = .Subscribe ∨ msg.action = .Unsubscribe ∨ msg.action = .Timeout)
    (h : ∀ w, lookupTopic m t = some w → w.management_callback = none) :
    ∀ w, lookupTopic (update_topic m msg now).1 t = some w →
      w.management_callback = none := by
  obtain ⟨c, action⟩ := msg
  by_cases htc : t = c
  · subst htc
    rcases hk with hk | hk | hk <;> cases hk
    · cases hl : lookupTopic m t with
      | none =>
        rw [update_subscribe_absent m t now hl]
        dsimp only
        rw [lookupTopic_insertTopic_self]
        intro w hw
        cases hw
        rfl
      | some v =>
        rw [update_subscribe_present m t v now hl]
        dsimp only
        rw [lookupTopic_insertTopic_self]
        intro w hw
        cases hw
        exact h v hl
    · cases hl : lookupTopic m t with
      | none =>
        rw [update_unsubscribe_absent m t now hl]
        exact h
      | some v =>
        rw [update_unsubscribe_present_none m t v now hl (h v hl)]
        dsimp only
        rw [lookupTopic_insertTopic_self]
        intro w hw
        cases hw
        exact h v hl
    · cases hl : lookupTopic m t with
      | none =>
        rw [update_timeout_absent m t now hl]
        exact h
      | some v =>
        rw [update_timeout_present_none m t v now hl (h v hl)]
        dsimp only
        rw [lookupTopic_insertTopic_self]
        intro w hw
        cases hw
        exact h v hl
  · intro w hw
    rw [lookupTopic_update_topic_ne m _ now t htc] at hw
    exact h w hw

/-- Along any Subscribe/Unsubscribe/Timeout event sequence, a topic entry
without a management callback never acquires one. -/
theorem cbNone_runEvents (m : ActiveTopicsMap) (es : List (MonitorMessage × Nat))
    (t : String)
    (hk : ∀ e ∈ es, (e : MonitorMessage × Nat).1.action = .Subscribe ∨
      e.1.action = .Unsubscribe ∨ e.1.action = .Timeout)
    (h : ∀ w, lookupTopic m t = some w → w.management_callback = none) :
    ∀ w, lookupTopic (runEvents m es).1 t = some w →
      w.management_callback = none := by
  induction es generalizing m with
  | nil => exact h
  | cons e rest ih =>
    obtain ⟨msg, now⟩ := e
    have h1 := cbNone_step m msg now t (hk _ (List.mem_cons_self _ _)) h
    exact ih (update_topic m msg now).1
      (fun e he => hk e (List.mem_cons_of_mem _ he)) h1

/-! ## Claim theorems -/

/-- Claim C1, counterexample: an Unsubscribe on a topic with count 0 and no
management callback drives the count to -1 — the clamp is NOT applied
regardless of the callback, contradicting the claim. -/
theorem unsubscribe_underflow_no_callback_counterexample :
    (lookupTopic (update_topic [("t", ⟨"", 0, false, 0, none⟩)]
        ⟨"t", .Unsubscribe⟩ 1).1 "t").map TopicMetadata.count = some (-1) ∧
    ¬ (lookupTopic (update_topic [("t", ⟨"", 0, false, 0, none⟩)]
        ⟨"t", .Unsubscribe⟩ 1).1 "t").map TopicMetadata.count = some 0 := by
  decide

/-- Claim C1, amended: an Unsubscribe on a topic whose count is 0 clamps the
count to 0 exactly when the management callback URI is set; when it is not
set, the count is decremented to -1. -/
theorem unsubscribe_at_zero_clamps_only_with_callback
    (m : ActiveTopicsMap) (t : String) (v : TopicMetadata) (now : Nat)
    (h : lookupTopic m t = some v) (hc : v.count = 0) :
    lookupTopic (update_topic m ⟨t, .Unsubscribe⟩ now).1 t =
      some { v with
        count := if v.management_callback.isSome then 0 else -1,
        last_action := now } := by
  cases hcb : v.management_callback with
  | none =>
    rw [update_unsubscribe_present_none m t v now h hcb]
    dsimp only
    rw [lookupTopic_insertTopic_self]
    simp [hcb, hc]
  | some u =>
    rw [update_unsubscribe_present_clamp m t v u now h hcb (by omega)]
    dsimp only
    rw [lookupTopic_insertTopic_self]
    simp [hcb]

/-- Witness for the amended C1 at a concrete callback-set topic. -/
theorem unsubscribe_at_zero_clamps_only_with_callback_witness :
    lookupTopic (update_topic [("t", ⟨"p", 0, false, 0, some "u"⟩)]
        ⟨"t", .Unsubscribe⟩ 5).1 "t" =
      some { (⟨"p", 0, false, 0, some "u"⟩ : TopicMetadata) with
        count := if (Option.some "u").isSome then (0 : Int) else -1,
        last_action := 5 } :=
  unsubscribe_at_zero_clamps_only_with_callback
    [("t", ⟨"p", 0, false, 0, some "u"⟩)] "t" ⟨"p", 0, false, 0, some "u"⟩ 5
    (by decide) (by decide)

/-- Claim C2, counterexample: on a topic with callback set and count already
0, a further Unsubscribe DOES emit another Stop action (the code's own test
`unsubscribe_topic_with_no_subs_test` asserts this), while the count stays
at 0 — contradicting the claim that no additional Stop is emitted. -/
theorem unsubscribe_at_zero_emits_stop_counterexample :
    (update_topic [("t", ⟨"", 0, false, 0, some "u"⟩)] ⟨"t", .Unsubscribe⟩ 1).2 =
      some (.Stop ⟨"t", "u"⟩) ∧
    (lookupTopic (update_topic [("t", ⟨"", 0, false, 0, some "u"⟩)]
        ⟨"t", .Unsubscribe⟩ 1).1 "t").map TopicMetadata.count = some 0 := by
  decide

/-- Claim C2, amended: on a topic with callback URI set and count 0, a
further Unsubscribe keeps the count at 0 and emits another Stop action —
the Stop fires whenever the post-decrement count is ≤ 0 and the callback is
set, not only when the pre-decrement count was positive. -/
theorem unsubscribe_at_zero_with_callback_stops
    (m : ActiveTopicsMap) (t : String) (v : TopicMetadata) (u : String) (now : Nat)
    (h : lookupTopic m t = some v) (hcb : v.management_callback = some u)
    (hc : v.count = 0) :
    update_topic m ⟨t, .Unsubscribe⟩ now =
      (insertTopic m t { v with count := 0, last_action := now },
        some (.Stop ⟨t, u⟩)) :=
  update_unsubscribe_present_clamp m t v u now h hcb (by omega)

/-- Witness for the amended C2 at a concrete topic. -/
theorem unsubscribe_at_zero_with_callback_stops_witness :
    update_topic [("t", ⟨"p", 0, false, 0, some "u"⟩)] ⟨"t", .Unsubscribe⟩ 9 =
      (insertTopic [("t", ⟨"p", 0, false, 0, some "u"⟩)] "t"
          { (⟨"p", 0, false, 0, some "u"⟩ : TopicMetadata) with
            count := 0, last_action := 9 },
        some (.Stop ⟨"t", "u"⟩)) :=
  unsubscribe_at_zero_with_callback_stops
    [("t", ⟨"p", 0, false, 0, some "u"⟩)] "t" ⟨"p", 0, false, 0, some "u"⟩ "u" 9
    (by decide) (by decide) (by decide)

/-- Claim C3: a Subscribe on a present topic increments the count and
refreshes `last_action`, emitting a Start exactly when the callback is set
and the pre-increment count was 0; over every event sequence the Start
actions for a topic match its callback-set 0→1 count transitions. -/
theorem start_emitted_exactly_on_zero_to_one
    (m : ActiveTopicsMap) (es : List (MonitorMessage × Nat)) (t : String)
    (v : TopicMetadata) (now : Nat) (hn : KeysNodup m) :
    (lookupTopic m t = some v →
      update_topic m ⟨t, .Subscribe⟩ now =
        (insertTopic m t { v with count := v.count + 1, last_action := now },
          if v.count = 0 then
            v.management_callback.map (fun u => TopicAction.Start ⟨t, u⟩)
          else none)) ∧
    countStarts t (runEvents m es).2 = countZeroOne m es t := by
  constructor
  · intro h
    rw [update_subscribe_present m t v now h]
    have hif : (if v.count + 1 = 1 then
        v.management_callback.map (fun u => TopicAction.Start ⟨t, u⟩) else none) =
        (if v.count = 0 then
          v.management_callback.map (fun u => TopicAction.Start ⟨t, u⟩) else none) := by
      by_cases hc : v.count = 0
      · have hone : v.count + 1 = 1 := by omega
        simp [hc, hone]
      · have hone : ¬(v.count + 1 = 1) := by omega
        simp [hc, hone]
    rw [hif]
  · exact countStarts_runEvents m es t hn

/-- Witness for C3 on a concrete one-event sequence producing one Start. -/
theorem start_emitted_exactly_on_zero_to_one_witness :
    KeysNodup [("t", ⟨"p", 0, false, 0, some "u"⟩)] ∧
    countStarts "t"
        (runEvents [("t", ⟨"p", 0, false, 0, some "u"⟩)]
          [(⟨"t", .Subscribe⟩, 1)]).2 =
      countZeroOne [("t", ⟨"p", 0, false, 0, some "u"⟩)]
        [(⟨"t", .Subscribe⟩, 1)] "t" :=
  ⟨by decide,
    (start_emitted_exactly_on_zero_to_one [("t", ⟨"p", 0, false, 0, some "u"⟩)]
      [(⟨"t", .Subscribe⟩, 1)] "t" ⟨"p", 0, false, 0, some "u"⟩ 1 (by decide)).2⟩

/-- Claim C4: at most one Delete action per topic over any event sequence;
a Delete event on a present topic removes the entry and emits a Delete
action only if the callback was set, and a Delete event on an absent topic
is a no-op emitting nothing. -/
theorem delete_action_at_most_once
    (m : ActiveTopicsMap) (es : List (MonitorMessage × Nat)) (t : String)
    (now : Nat) (hn : KeysNodup m) :
    countDeletes t (runEvents m es).2 ≤ 1 ∧
    (∀ v, lookupTopic m t = some v →
      update_topic m ⟨t, .Delete⟩ now =
        (removeTopic m t,
          v.management_callback.map (fun u => TopicAction.Delete ⟨t, u⟩)) ∧
      lookupTopic (update_topic m ⟨t, .Delete⟩ now).1 t = none) ∧
    (lookupTopic m t = none → update_topic m ⟨t, .Delete⟩ now = (m, none)) := by
  refine ⟨le_trans (countDeletes_runEvents m es t hn) (cbFlag_le_one m t), ?_, ?_⟩
  · intro v hv
    constructor
    · rw [update_delete_eq, hv]
      rfl
    · rw [update_delete_eq]
      dsimp only
      exact lookupTopic_removeTopic_self m t hn
  · intro hv
    rw [update_delete_eq, hv, removeTopic_absent m t hv]
    rfl

/-- Witness for C4: two Delete events in sequence yield a single Delete
action. -/
theorem delete_action_at_most_once_witness :
    KeysNodup [("t", ⟨"p", 1, false, 0, some "u"⟩)] ∧
    countDeletes "t"
        (runEvents [("t", ⟨"p", 1, false, 0, some "u"⟩)]
          [(⟨"t", .Delete⟩, 1), (⟨"t", .Delete⟩, 2)]).2 ≤ 1 :=
  ⟨by decide,
    (delete_action_at_most_once [("t", ⟨"p", 1, false, 0, some "u"⟩)]
      [(⟨"t", .Delete⟩, 1), (⟨"t", .Delete⟩, 2)] "t" 0 (by decide)).1⟩

/-- Claim C5, counterexample: CreateTopic whose generated id collides with
an existing key OVERWRITES the existing entry (`HashMap::insert` replaces);
insertion does not fail and the existing entry is not preserved. -/
theorem create_topic_collision_overwrites_counterexample :
    (create_topic [("g", ⟨"old", 5, false, 0, some "oldcb"⟩)]
        "g" "new" "newcb" "b" "p" 7).1 =
      [("g", ⟨"new", 0, false, 7, some "newcb"⟩)] ∧
    ¬ lookupTopic (create_topic [("g", ⟨"old", 5, false, 0, some "oldcb"⟩)]
        "g" "new" "newcb" "b" "p" 7).1 "g" =
      some ⟨"old", 5, false, 0, some "oldcb"⟩ := by
  decide

/-- Claim C5, amended: CreateTopic's insertion always succeeds, replacing
any existing entry under the generated id with the fresh metadata; there is
no failure and no retry. -/
theorem create_topic_always_inserts
    (map : ActiveTopicsMap) (gen pubId cb uri protocol : String) (now : Nat) :
    create_topic map gen pubId cb uri protocol now =
      (insertTopic map gen (TopicMetadata.new pubId 0 now (some cb)),
        ⟨gen, uri, protocol⟩) ∧
    lookupTopic (create_topic map gen pubId cb uri protocol now).1 gen =
      some (TopicMetadata.new pubId 0 now (some cb)) :=
  ⟨rfl, lookupTopic_insertTopic_self map gen _⟩

/-- Claim C6: DeleteTopic is idempotent and total — a no-op on a missing id,
and on a present id it only sets the deleted flag; applying it twice equals
applying it once. -/
theorem delete_topic_idempotent (map : ActiveTopicsMap) (t : String) :
    delete_topic (delete_topic map t) t = delete_topic map t ∧
    (lookupTopic map t = none → delete_topic map t = map) ∧
    (∀ v, lookupTopic map t = some v →
      delete_topic map t = insertTopic map t { v with deleted := true } ∧
      lookupTopic (delete_topic map t) t = some { v with deleted := true } ∧
      ∀ s, s ≠ t → lookupTopic (delete_topic map t) s = lookupTopic map s) := by
  refine ⟨?_, ?_, ?_⟩
  · cases h : lookupTopic map t with
    | none =>
      have h1 : delete_topic map t = map := by simp [delete_topic, h]
      rw [h1, h1]
    | some v =>
      have h1 : delete_topic map t = insertTopic map t v.delete := by
        simp [delete_topic, h]
      have h2 : lookupTopic (insertTopic map t v.delete) t = some v.delete :=
        lookupTopic_insertTopic_self map t _
      rw [h1]
      show delete_topic (insertTopic map t v.delete) t = _
      simp only [delete_topic, h2]
      rw [insertTopic_insertTopic]
      rfl
  · intro h
    simp [delete_topic, h]
  · intro v h
    have h1 : delete_topic map t = insertTopic map t { v with deleted := true } := by
      simp [delete_topic, h, TopicMetadata.delete]
    refine ⟨h1, ?_, ?_⟩
    · rw [h1]
      exact lookupTopic_insertTopic_self map t _
    · intro s hs
      rw [h1]
      exact lookupTopic_insertTopic_ne map t s _ hs

/-- Witness for C6 at a concrete one-entry registry. -/
theorem delete_topic_idempotent_witness :
    delete_topic (delete_topic [("a", ⟨"p", 2, false, 3, some "u"⟩)] "a") "a" =
      delete_topic [("a", ⟨"p", 2, false, 3, some "u"⟩)] "a" ∧
    lookupTopic (delete_topic [("a", ⟨"p", 2, false, 3, some "u"⟩)] "a") "a" =
      some ⟨"p", 2, true, 3, some "u"⟩ :=
  ⟨(delete_topic_idempotent [("a", ⟨"p", 2, false, 3, some "u"⟩)] "a").1,
    ((delete_topic_idempotent [("a", ⟨"p", 2, false, 3, some "u"⟩)] "a").2.2
      ⟨"p", 2, false, 3, some "u"⟩ (by decide)).2.1⟩

/-- Claim C7: `manage_topic` on a Delete action returns Ok with the action's
metadata without reaching the outbound RPC path; only Start and Stop
actions reach the ManageTopic RPC. -/
theorem manage_topic_delete_short_circuits
    (getUri : String → Except String String)
    (rpcCall : String → ManageTopicRequest → Except String Unit)
    (info : TopicManagementInfo) :
    manage_topic getUri rpcCall (.Delete info) =
      (.ok { topic := info.topic, uri := info.uri, action := "DELETE" }, false) ∧
    ∀ a, (manage_topic getUri rpcCall a).2 = true →
      (∃ i, a = .Start i) ∨ (∃ i, a = .Stop i) := by
  constructor
  · rfl
  · intro a ha
    cases a with
    | Start i => exact Or.inl ⟨i, rfl⟩
    | Stop i => exact Or.inr ⟨i, rfl⟩
    | Delete i =>
      have hd : manage_topic getUri rpcCall (.Delete i) =
          (.ok { topic := i.topic, uri := i.uri, action := "DELETE" }, false) := rfl
      rw [hd] at ha
      cases ha

/-- Witness for C7: a Start action with succeeding oracles reaches the RPC
path, exercising the second conjunct. -/
theorem manage_topic_delete_short_circuits_witness :
    (∃ i, TopicAction.Start ⟨"t", "u"⟩ = TopicAction.Start i) ∨
    (∃ i, TopicAction.Start ⟨"t", "u"⟩ = TopicAction.Stop i) :=
  (manage_topic_delete_short_circuits (fun s => .ok s) (fun _ _ => .ok ())
    ⟨"x", "y"⟩).2 (.Start ⟨"t", "u"⟩) rfl

/-- Claim C8: a Subscribe for a topic id absent from the Registry inserts a
placeholder with empty owner id, no callback URI and count 1, and emits no
action. -/
theorem subscribe_absent_inserts_placeholder
    (m : ActiveTopicsMap) (t : String) (now : Nat)
    (h : lookupTopic m t = none) :
    update_topic m ⟨t, .Subscribe⟩ now =
      (insertTopic m t ⟨"", 1, false, now, none⟩, none) ∧
    lookupTopic (update_topic m ⟨t, .Subscribe⟩ now).1 t =
      some ⟨"", 1, false, now, none⟩ := by
  have h1 := update_subscribe_absent m t now h
  refine ⟨h1, ?_⟩
  rw [h1]
  exact lookupTopic_insertTopic_self m t _

/-- Witness for C8 on the empty registry. -/
theorem subscribe_absent_inserts_placeholder_witness :
    update_topic [] ⟨"t", .Subscribe⟩ 4 =
      (insertTopic [] "t" ⟨"", 1, false, 4, none⟩, none) :=
  (subscribe_absent_inserts_placeholder [] "t" 4 (by decide)).1

/-- Claim C9, counterexample: a CreateTopic request with empty publisher_id
and empty management_callback is accepted — the handler answers with the
normal success response and inserts an entry, changing the Registry. -/
theorem create_topic_empty_fields_accepted_counterexample :
    (create_topic [] "g" "" "" "b" "p" 0).2 =
      { generated_topic := "g", broker_uri := "b", broker_protocol := "p" } ∧
    (create_topic [] "g" "" "" "b" "p" 0).1 =
      [("g", ⟨"", 0, false, 0, some ""⟩)] ∧
    ¬ (create_topic [] "g" "" "" "b" "p" 0).1 = ([] : ActiveTopicsMap) := by
  decide

/-- Claim C9, amended: no field validation is performed — a CreateTopic with
empty publisher_id and callback succeeds with the usual response, storing
the empty strings verbatim (callback becomes `some ""`) and mutating the
Registry. -/
theorem create_topic_no_validation
    (map : ActiveTopicsMap) (gen uri protocol : String) (now : Nat) :
    create_topic map gen "" "" uri protocol now =
      (insertTopic map gen (TopicMetadata.new "" 0 now (some "")),
        ⟨gen, uri, protocol⟩) ∧
    lookupTopic (create_topic map gen "" "" uri protocol now).1 gen =
      some (TopicMetadata.new "" 0 now (some "")) :=
  ⟨rfl, lookupTopic_insertTopic_self map gen _⟩

/-- Claim C10: Subscribe/Unsubscribe/Timeout processing mutates at most the
entry named by the event's context, never changes `client_id` or
`management_callback` of an existing entry, inserts only the
callback-free placeholder, and a callback-free entry never acquires a
callback along such event sequences. -/
theorem update_topic_frame_and_callback_preservation
    (m : ActiveTopicsMap) (msg : MonitorMessage) (now : Nat)
    (hk : msg.action = .Subscribe ∨ msg.action = .Unsubscribe ∨
      msg.action = .Timeout) :
    (∀ t, t ≠ msg.context →
      lookupTopic (update_topic m msg now).1 t = lookupTopic m t) ∧
    (∀ v w, lookupTopic m msg.context = some v →
      lookupTopic (update_topic m msg now).1 msg.context = some w →
      w.client_id = v.client_id ∧ w.management_callback = v.management_callback) ∧
    (lookupTopic m msg.context = none → msg.action = .Subscribe →
      lookupTopic (update_topic m msg now).1 msg.context =
        some ⟨"", 1, false, now, none⟩) ∧
    (∀ es t, (∀ e ∈ es, (e : MonitorMessage × Nat).1.action = .Subscribe ∨
        e.1.action = .Unsubscribe ∨ e.1.action = .Timeout) →
      (∀ w, lookupTopic m t = some w → w.management_callback = none) →
      ∀ w, lookupTopic (runEvents m es).1 t = some w →
        w.management_callback = none) := by
  refine ⟨fun t ht => lookupTopic_update_topic_ne m msg now t ht, ?_, ?_,
    fun es t hks h => cbNone_runEvents m es t hks h⟩
  · intro v w hv hw
    obtain ⟨c, action⟩ := msg
    rcases hk with hk | hk | hk <;> cases hk
    · rw [update_subscribe_present m c v now hv] at hw
      dsimp only at hw
      rw [lookupTopic_insertTopic_self] at hw
      cases hw
      exact ⟨rfl, rfl⟩
    · cases hcb : v.management_callback with
      | none =>
        rw [update_unsubscribe_present_none m c v now hv hcb] at hw
        dsimp only at hw
        rw [lookupTopic_insertTopic_self] at hw
        cases hw
        exact ⟨rfl, hcb⟩
      | some u =>
        by_cases hc : v.count - 1 ≤ 0
        · rw [update_unsubscribe_present_clamp m c v u now hv hcb hc] at hw
          dsimp only at hw
          rw [lookupTopic_insertTopic_self] at hw
          cases hw
          exact ⟨rfl, hcb⟩
        · rw [update_unsubscribe_present_pos m c v u now hv hcb (by omega)] at hw
          dsimp only at hw
          rw [lookupTopic_insertTopic_self] at hw
          cases hw
          exact ⟨rfl, hcb⟩
    · cases hcb : v.management_callback with
      | none =>
        rw [update_timeout_present_none m c v now hv hcb] at hw
        dsimp only at hw
        rw [lookupTopic_insertTopic_self] at hw
        cases hw
        exact ⟨rfl, hcb⟩
      | some u =>
        by_cases hc : v.count ≤ 0
        · rw [update_timeout_present_clamp m c v u now hv hcb hc] at hw
          dsimp only at hw
          rw [lookupTopic_insertTopic_self] at hw
          cases hw
          exact ⟨rfl, hcb⟩
        · rw [update_timeout_present_pos m c v u now hv hcb (by omega)] at hw
          dsimp only at hw
          rw [lookupTopic_insertTopic_self] at hw
          cases hw
          exact ⟨rfl, hcb⟩
  · intro hv hsub
    obtain ⟨c, action⟩ := msg
    cases hsub
    rw [update_subscribe_absent m c now hv]
    dsimp only
    exact lookupTopic_insertTopic_self m c _

/-- Witness for C10: on the empty registry a Subscribe inserts the
callback-free placeholder. -/
theorem update_topic_frame_and_callback_preservation_witness :
    lookupTopic (update_topic [] ⟨"t", .Subscribe⟩ 2).1 "t" =
      some ⟨"", 1, false, 2, none⟩ :=
  (update_topic_frame_and_callback_preservation [] ⟨"t", .Subscribe⟩ 2
    (Or.inl rfl)).2.2.1 (by decide) rfl

end Agemo
